import Mathlib

/-!
Shallow embedding of the experiment-terminator engine
(`src/experiment_terminator.py`, class `ExperimentTerminator`) and of the
termination decision rule of the presentation layer (`src/app.py`,
function `analyze_experiment`).

Modelling conventions:
* Python ints are `ℤ`, numpy floating-point sample values are `ℚ`.
* The process-wide numpy RNG is modelled by an oracle (`RngOracle`): each call
  site of `np.random.beta` / `np.random.binomial` is tagged with a distinct
  call index (outer-loop iteration `i` uses indices `2 + 2*i` and `3 + 2*i`),
  so distinct calls draw independent, arbitrary values.  Properties are
  proved for every oracle, i.e. for every possible sequence of draws.
  `ValidRand` states the support facts of the distributions: a size-`n`
  request returns `n` values, Beta draws lie in `[0, 1]` (boundary included)
  and Binomial(n, p) draws lie in `[0, n]`.
* `np.random.beta` raises `ValueError` for a non-positive shape parameter and
  `np.random.binomial` raises for `n < 0` or `p` outside `[0, 1]`; these
  documented numpy error contracts are modelled with `Except`.
* `np.quantile` with the default (linear-interpolation) method sorts the data
  and interpolates at the virtual index `q * (n - 1)`; `npQuantile` mirrors
  that rule (the sorted list of values is unique, so insertion sort gives
  the same result as numpy's sort).
-/

/-- Configuration state of the Python class `ExperimentTerminator`:
`self.mc_samples` and `self.alpha`, set in `__init__`. -/
structure ExperimentTerminator where
  mc_samples : ℕ
  alpha : ℚ

/-- Constructor defaults from `ExperimentTerminator.__init__`:
`mc_samples = 5_000`, `alpha = 0.05`. -/
def ExperimentTerminator.init : ExperimentTerminator :=
  ⟨5000, 0.05⟩

/-- Oracle supplying the random draws of the process-wide numpy generator.
Each syntactic call site of a numpy sampling routine consults the oracle at
its own call index, so the draws of distinct calls are unrelated. -/
structure RngOracle where
  beta : ℕ → ℤ → ℤ → ℕ → List ℚ
  binom : ℕ → ℤ → List ℚ → List ℤ

/-- Support facts of the sampled distributions: sizes are honoured, Beta
draws lie in `[0, 1]` and Binomial(n, p) draws lie in `[0, n]`. -/
structure ValidRand (r : RngOracle) : Prop where
  beta_length : ∀ k a b n, (r.beta k a b n).length = n
  beta_mem : ∀ k a b n, ∀ x ∈ r.beta k a b n, 0 ≤ x ∧ x ≤ 1
  binom_length : ∀ k n ps, (r.binom k n ps).length = ps.length
  binom_mem : ∀ k n ps, 0 ≤ n → ∀ x ∈ r.binom k n ps, 0 ≤ x ∧ x ≤ n

/-- Model of `np.random.beta(a, b, size)`: raises `ValueError` when a shape
parameter is non-positive, otherwise returns `size` draws. -/
def npBeta (r : RngOracle) (k : ℕ) (a b : ℤ) (size : ℕ) : Except String (List ℚ) :=
  if a ≤ 0 ∨ b ≤ 0 then Except.error "np.random.beta: non-positive shape parameter"
  else Except.ok (r.beta k a b size)

/-- Model of `np.random.binomial(n, p, size)` with an array argument `p`:
raises `ValueError` when `n < 0` or some entry of `p` is outside `[0, 1]`,
and needs `p` to have `size` entries (the engine always passes arrays of
length `size`, so general numpy broadcasting is not modelled). -/
def npBinomial (r : RngOracle) (k : ℕ) (n : ℤ) (ps : List ℚ) (size : ℕ) :
    Except String (List ℤ) :=
  if n < 0 then Except.error "np.random.binomial: n < 0"
  else if ps.any (fun p => decide (p < 0) || decide (1 < p)) then
    Except.error "np.random.binomial: p outside the unit interval"
  else if ps.length = size then Except.ok (r.binom k n ps)
  else Except.error "np.random.binomial: size mismatch"

/-- Model of `np.mean` on a one-dimensional array. -/
def npMean (xs : List ℚ) : ℚ :=
  xs.sum / xs.length

/-- Linear interpolation of a (sorted) data list at the virtual index `h`,
reading `s[floor h]` and `s[floor h + 1]` (the latter falling back to the
former at the right edge), as numpy's default quantile method does. -/
def interpAt (s : List ℚ) (h : ℚ) : ℚ :=
  s.getD (⌊h⌋).toNat 0 +
    (h - (⌊h⌋ : ℚ)) *
      (s.getD ((⌊h⌋).toNat + 1) (s.getD (⌊h⌋).toNat 0) - s.getD (⌊h⌋).toNat 0)

/-- Ascending sort of the data, as numpy's quantile routine performs. -/
def sortedSamples (xs : List ℚ) : List ℚ :=
  xs.insertionSort (· ≤ ·)

/-- Model of `np.quantile(xs, q)` with the default linear-interpolation
method: sort, then interpolate at the virtual index `q * (len - 1)`. -/
def npQuantile (xs : List ℚ) (q : ℚ) : ℚ :=
  interpAt (sortedSamples xs) (q * ((xs.length : ℚ) - 1))

namespace ExperimentTerminator

/-- Embedding of `ExperimentTerminator.get_posterior_samples`: one Beta draw
of size `mc_samples` per arm, with shape parameters taken directly from the
observed successes and failures (no smoothing). -/
def get_posterior_samples (self : ExperimentTerminator) (r : RngOracle)
    (completed_trials_a completed_trials_b successes_a successes_b : ℤ) :
    Except String (List ℚ × List ℚ) := do
  let posterior_samples_a ←
    npBeta r 0 successes_a (completed_trials_a - successes_a) self.mc_samples
  let posterior_samples_b ←
    npBeta r 1 successes_b (completed_trials_b - successes_b) self.mc_samples
  return (posterior_samples_a, posterior_samples_b)

/-- Embedding of `ExperimentTerminator.get_prob_reject_null`: Binomial
forward simulation of the remaining trials of each arm on top of the current
posterior draws, then for each outer scenario `i` a fresh inner pair of
Laplace-smoothed (+1/+1) Beta sample sets at the hypothetical final counts;
scenario `i` is marked 1 when the empirical `alpha/2` and `1 - alpha/2`
quantiles of the inner differences test minus control are both above or both
below zero (`interval[0] > 0 or interval[1] < 0` in the source), and the
mean of the marks is returned.

The loop body (one outer scenario `i`) is split out as `scenario_rejection`
so the loop can be reasoned about; `get_prob_reject_null` below maps it over
`range self.mc_samples` exactly as the source's `for` loop does. -/
def scenario_rejection (self : ExperimentTerminator) (r : RngOracle)
    (planned_trials_a planned_trials_b : ℤ)
    (potential_successes_a potential_successes_b : List ℤ) (i : ℕ) :
    Except String ℚ := do
  let fa := potential_successes_a.getD i 0
  let fb := potential_successes_b.getD i 0
  let post_samples_a ←
    npBeta r (2 + 2*i) (fa + 1) (planned_trials_a - fa + 1) self.mc_samples
  let post_samples_b ←
    npBeta r (3 + 2*i) (fb + 1) (planned_trials_b - fb + 1) self.mc_samples
  let post_samples_b_minus_a :=
    List.zipWith (fun b a => b - a) post_samples_b post_samples_a
  let lo := npQuantile post_samples_b_minus_a (self.alpha / 2)
  let hi := npQuantile post_samples_b_minus_a (1 - self.alpha / 2)
  return if 0 < lo ∨ hi < 0 then (1 : ℚ) else 0

/-- Embedding of the `for i in range(self.mc_samples)` loop and surrounding
code of `get_prob_reject_null`; the loop body is the named function
`scenario_rejection` above. -/
def get_prob_reject_null (self : ExperimentTerminator) (r : RngOracle)
    (planned_trials_a planned_trials_b completed_trials_a completed_trials_b
      successes_a successes_b : ℤ)
    (posterior_samples_a posterior_samples_b : List ℚ) :
    Except String ℚ := do
  let pota ←
    npBinomial r 0 (planned_trials_a - completed_trials_a) posterior_samples_a
      self.mc_samples
  let potential_successes_a := pota.map (· + successes_a)
  let potb ←
    npBinomial r 1 (planned_trials_b - completed_trials_b) posterior_samples_b
      self.mc_samples
  let potential_successes_b := potb.map (· + successes_b)
  let rejection ← (List.range self.mc_samples).mapM
    (scenario_rejection self r planned_trials_a planned_trials_b
      potential_successes_a potential_successes_b)
  return npMean rejection

/-- Embedding of `ExperimentTerminator.analyze_experiment`: posterior
samples, elementwise relative lift, exact observed rates, posterior-mean
lift, the fraction of lift draws that are nonnegative, and the predictive
rejection probability. -/
structure AnalysisResult where
  conversion_rate_a : ℚ
  conversion_rate_b : ℚ
  expected_lift : ℚ
  pr_b_gt_a : ℚ
  pr_reject_null : ℚ
  posterior_lift : List ℚ

/-- Embedding of the body of `ExperimentTerminator.analyze_experiment`. -/
def analyze_experiment (self : ExperimentTerminator) (r : RngOracle)
    (planned_trials_a planned_trials_b completed_trials_a completed_trials_b
      successes_a successes_b : ℤ) :
    Except String AnalysisResult := do
  let posterior_samples ←
    self.get_posterior_samples r completed_trials_a completed_trials_b
      successes_a successes_b
  let posterior_lift :=
    List.zipWith (fun b a => (b - a) / a) posterior_samples.2 posterior_samples.1
  let conversion_rate_a := (successes_a : ℚ) / (completed_trials_a : ℚ)
  let conversion_rate_b := (successes_b : ℚ) / (completed_trials_b : ℚ)
  let expected_lift := npMean posterior_lift
  let pr_b_gt_a := npMean (posterior_lift.map (fun x => if 0 ≤ x then (1 : ℚ) else 0))
  let pr_reject_null ←
    self.get_prob_reject_null r planned_trials_a planned_trials_b
      completed_trials_a completed_trials_b successes_a successes_b
      posterior_samples.1 posterior_samples.2
  return ⟨conversion_rate_a, conversion_rate_b, expected_lift, pr_b_gt_a,
    pr_reject_null, posterior_lift⟩

end ExperimentTerminator

/-- Decision classifications reached by `analyze_experiment` in `src/app.py`. -/
inductive Conclusion where
  | terminate_no_difference
  | terminate_test_superior
  | terminate_control_superior
  | do_not_terminate
deriving DecidableEq

/-- Embedding of the conclusion logic of `analyze_experiment` in
`src/app.py` (lines 33-50): `exp_output[4]` is `pr_reject_null` and
`exp_output[3]` is `pr_b_gt_a`. -/
def classify_experiment (pr_reject_null pr_b_gt_a : ℚ) : Conclusion :=
  if pr_reject_null < 0.01 ∨ pr_reject_null > 0.99 then
    if pr_reject_null < 0.01 then Conclusion.terminate_no_difference
    else if pr_b_gt_a > 0.5 then Conclusion.terminate_test_superior
    else Conclusion.terminate_control_superior
  else Conclusion.do_not_terminate

/-- Validity of one arm's observation, as assumed by the engine's interface:
`0 ≤ successes ≤ completedTrials ≤ plannedTrials`. -/
def ValidObs (planned completed successes : ℤ) : Prop :=
  0 ≤ successes ∧ successes ≤ completed ∧ completed ≤ planned

instance (p c s : ℤ) : Decidable (ValidObs p c s) := by
  unfold ValidObs; infer_instance

/-! ## General helpers about `Except`-valued list traversals and means -/

theorem mapM_eq_ok_of_forall {α β : Type} (f : α → Except String β) (g : α → β) :
    ∀ (l : List α), (∀ a ∈ l, f a = Except.ok (g a)) →
      l.mapM f = Except.ok (l.map g) := by
  intro l h
  rw [← List.mapM'_eq_mapM]
  induction l with
  | nil => rfl
  | cons a t ih =>
    simp only [List.mapM', List.map]
    rw [h a (by simp), ih (fun x hx => h x (by simp [hx]))]
    rfl

theorem mapM_ok_elim {α β : Type} (f : α → Except String β) :
    ∀ (l : List α) (ys : List β), l.mapM f = Except.ok ys →
      ys.length = l.length ∧ ∀ y ∈ ys, ∃ a ∈ l, f a = Except.ok y := by
  intro l
  rw [← List.mapM'_eq_mapM]
  induction l with
  | nil =>
    intro ys h
    simp only [List.mapM', pure, Except.pure] at h
    cases h
    simp
  | cons a t ih =>
    intro ys h
    simp only [List.mapM'] at h
    cases hfa : f a with
    | error e => rw [hfa] at h; simp [Bind.bind, Except.bind] at h
    | ok b =>
      rw [hfa] at h
      cases hmt : t.mapM' f with
      | error e => rw [hmt] at h; simp [Bind.bind, Except.bind] at h
      | ok bs =>
        rw [hmt] at h
        simp only [Bind.bind, Except.bind, pure, Except.pure, Except.ok.injEq] at h
        obtain ⟨h1, h2⟩ := ih bs hmt
        subst h
        refine ⟨by simp [h1], ?_⟩
        intro y hy
        rcases List.mem_cons.mp hy with hy | hy
        · exact ⟨a, by simp, hy ▸ hfa⟩
        · obtain ⟨x, hx, hfx⟩ := h2 y hy
          exact ⟨x, by simp [hx], hfx⟩

theorem sum_map_indicator {α : Type} (p : α → Prop) [DecidablePred p] (l : List α) :
    (l.map (fun a => if p a then (1 : ℚ) else 0)).sum =
      (l.countP (fun a => decide (p a)) : ℚ) := by
  induction l with
  | nil => simp
  | cons a t ih =>
    by_cases h : p a
    · simp only [List.map, List.sum_cons, if_pos h, ih, List.countP_cons,
        if_pos (decide_eq_true h)]
      push_cast
      ring
    · simp [List.countP_cons, h, ih]

theorem npMean_indicator {α : Type} (p : α → Prop) [DecidablePred p] (l : List α) :
    npMean (l.map (fun a => if p a then (1 : ℚ) else 0)) =
      (l.countP (fun a => decide (p a)) : ℚ) / (l.length : ℚ) := by
  rw [npMean, sum_map_indicator, List.length_map]

theorem npMean_nonneg {l : List ℚ} (h : ∀ x ∈ l, 0 ≤ x) : 0 ≤ npMean l :=
  div_nonneg (List.sum_nonneg h) (Nat.cast_nonneg _)

theorem npMean_le_one {l : List ℚ} (hne : l ≠ []) (h : ∀ x ∈ l, x ≤ 1) :
    npMean l ≤ 1 := by
  have hpos : (0 : ℚ) < l.length := by
    exact_mod_cast List.length_pos.mpr hne
  rw [npMean, div_le_one hpos]
  calc l.sum ≤ l.length • (1 : ℚ) := List.sum_le_card_nsmul l 1 h
    _ = l.length := by simp

/-! ## Monotonicity of the empirical quantile in the probability level -/

theorem sortedSamples_sorted (xs : List ℚ) :
    List.Sorted (· ≤ ·) (sortedSamples xs) :=
  List.sorted_insertionSort _ xs

theorem sortedSamples_length (xs : List ℚ) :
    (sortedSamples xs).length = xs.length :=
  List.length_insertionSort _ xs

theorem getD_mono_of_sorted {s : List ℚ} (hs : List.Sorted (· ≤ ·) s)
    {i j : ℕ} (hij : i ≤ j) (hj : j < s.length) :
    s.getD i 0 ≤ s.getD j 0 := by
  have hi : i < s.length := lt_of_le_of_lt hij hj
  rw [List.getD_eq_getElem s 0 hi, List.getD_eq_getElem s 0 hj]
  have := @List.Sorted.rel_get_of_le ℚ (· ≤ ·) _ s hs ⟨i, hi⟩ ⟨j, hj⟩
    (Fin.mk_le_mk.mpr hij)
  simpa [List.get_eq_getElem] using this

theorem getD_succ_ge {s : List ℚ} (hs : List.Sorted (· ≤ ·) s) (j : ℕ) :
    s.getD j 0 ≤ s.getD (j + 1) (s.getD j 0) := by
  by_cases hlt : j + 1 < s.length
  · rw [List.getD_eq_getElem s _ hlt, List.getD_eq_getElem s 0 (by omega)]
    have := @List.Sorted.rel_get_of_le ℚ (· ≤ ·) _ s hs ⟨j, by omega⟩ ⟨j + 1, hlt⟩
      (Fin.mk_le_mk.mpr (by omega))
    simpa [List.get_eq_getElem] using this
  · rw [List.getD_eq_default s (s.getD j 0) (show s.length ≤ j + 1 by omega)]

theorem interpAt_mono {s : List ℚ} (hs : List.Sorted (· ≤ ·) s)
    {h₁ h₂ : ℚ} (h0 : 0 ≤ h₁) (h12 : h₁ ≤ h₂)
    (htop : h₂ ≤ (s.length : ℚ) - 1) :
    interpAt s h₁ ≤ interpAt s h₂ := by
  have hf1 : (0 : ℤ) ≤ ⌊h₁⌋ := Int.floor_nonneg.mpr h0
  have hf2 : (0 : ℤ) ≤ ⌊h₂⌋ := le_trans hf1 (Int.floor_le_floor h12)
  have hn : 1 ≤ s.length := by
    rcases Nat.eq_zero_or_pos s.length with hz | hp
    · rw [hz] at htop
      norm_num at htop
      linarith
    · exact hp
  have hj2top : ⌊h₂⌋ ≤ (s.length : ℤ) - 1 := by
    have h1 : (⌊h₂⌋ : ℚ) ≤ (s.length : ℚ) - 1 := le_trans (Int.floor_le h₂) htop
    have h2 : ((s.length : ℤ) : ℚ) - 1 = (s.length : ℚ) - 1 := by push_cast; ring
    exact_mod_cast h1.trans_eq h2.symm
  have hj2lt : (⌊h₂⌋).toNat < s.length := by omega
  have hg1lo : 0 ≤ h₁ - (⌊h₁⌋ : ℚ) := by
    have := Int.floor_le h₁; linarith
  have hg1hi : h₁ - (⌊h₁⌋ : ℚ) < 1 := by
    have := Int.lt_floor_add_one h₁; linarith
  have hg2lo : 0 ≤ h₂ - (⌊h₂⌋ : ℚ) := by
    have := Int.floor_le h₂; linarith
  simp only [interpAt]
  rcases lt_or_eq_of_le (Int.toNat_le_toNat (Int.floor_le_floor h12)) with hjj | hjj
  · -- the two virtual indices fall in different sorted segments
    have hj1lt : (⌊h₁⌋).toNat + 1 < s.length := by omega
    have step1 : s.getD (⌊h₁⌋).toNat 0 +
        (h₁ - (⌊h₁⌋ : ℚ)) *
          (s.getD ((⌊h₁⌋).toNat + 1) (s.getD (⌊h₁⌋).toNat 0) -
            s.getD (⌊h₁⌋).toNat 0) ≤
        s.getD ((⌊h₁⌋).toNat + 1) (s.getD (⌊h₁⌋).toNat 0) := by
      have hAB : s.getD (⌊h₁⌋).toNat 0 ≤
          s.getD ((⌊h₁⌋).toNat + 1) (s.getD (⌊h₁⌋).toNat 0) := getD_succ_ge hs _
      nlinarith
    have step2 : s.getD ((⌊h₁⌋).toNat + 1) (s.getD (⌊h₁⌋).toNat 0) ≤
        s.getD (⌊h₂⌋).toNat 0 := by
      rw [List.getD_eq_getElem s _ hj1lt,
        ← List.getD_eq_getElem s 0 hj1lt]
      exact getD_mono_of_sorted hs (by omega) hj2lt
    have step3 : s.getD (⌊h₂⌋).toNat 0 ≤ s.getD (⌊h₂⌋).toNat 0 +
        (h₂ - (⌊h₂⌋ : ℚ)) *
          (s.getD ((⌊h₂⌋).toNat + 1) (s.getD (⌊h₂⌋).toNat 0) -
            s.getD (⌊h₂⌋).toNat 0) := by
      have hAB : s.getD (⌊h₂⌋).toNat 0 ≤
          s.getD ((⌊h₂⌋).toNat + 1) (s.getD (⌊h₂⌋).toNat 0) := getD_succ_ge hs _
      nlinarith
    exact le_trans (le_trans step1 step2) step3
  · -- same segment: the interpolation weight grows with the virtual index
    have hfeq : ⌊h₁⌋ = ⌊h₂⌋ := by
      have e1 : ((⌊h₁⌋).toNat : ℤ) = ⌊h₁⌋ := Int.toNat_of_nonneg hf1
      have e2 : ((⌊h₂⌋).toNat : ℤ) = ⌊h₂⌋ := Int.toNat_of_nonneg hf2
      omega
    rw [← hjj, ← hfeq]
    have hAB : s.getD (⌊h₁⌋).toNat 0 ≤
        s.getD ((⌊h₁⌋).toNat + 1) (s.getD (⌊h₁⌋).toNat 0) := getD_succ_ge hs _
    have hgg : h₁ - (⌊h₁⌋ : ℚ) ≤ h₂ - (⌊h₁⌋ : ℚ) := by linarith
    nlinarith

theorem npQuantile_mono {xs : List ℚ} (hne : xs ≠ [])
    {q₁ q₂ : ℚ} (h0 : 0 ≤ q₁) (h12 : q₁ ≤ q₂) (h21 : q₂ ≤ 1) :
    npQuantile xs q₁ ≤ npQuantile xs q₂ := by
  have hlen : (1 : ℚ) ≤ (xs.length : ℚ) := by
    exact_mod_cast List.length_pos.mpr hne
  apply interpAt_mono (sortedSamples_sorted xs)
  · exact mul_nonneg h0 (by linarith)
  · exact mul_le_mul_of_nonneg_right h12 (by linarith)
  · rw [sortedSamples_length]
    nlinarith

theorem npQuantile_lo_le_hi {xs : List ℚ} (hne : xs ≠ []) {alpha : ℚ}
    (h0 : 0 ≤ alpha) (h1 : alpha ≤ 1) :
    npQuantile xs (alpha / 2) ≤ npQuantile xs (1 - alpha / 2) :=
  npQuantile_mono hne (by linarith) (by linarith) (by linarith)

/-! ## Success characterizations of the sampling pipeline -/

theorem npBeta_ok {a b : ℤ} (ha : 0 < a) (hb : 0 < b)
    (r : RngOracle) (k : ℕ) (size : ℕ) :
    npBeta r k a b size = Except.ok (r.beta k a b size) := by
  rw [npBeta, if_neg]
  push_neg
  exact ⟨ha, hb⟩

theorem npBinomial_ok {n : ℤ} (hn : 0 ≤ n) {ps : List ℚ}
    (hmem : ∀ p ∈ ps, 0 ≤ p ∧ p ≤ 1) {size : ℕ} (hlen : ps.length = size)
    (r : RngOracle) (k : ℕ) :
    npBinomial r k n ps size = Except.ok (r.binom k n ps) := by
  have hany : ps.any (fun p => decide (p < 0) || decide (1 < p)) = false := by
    rw [List.any_eq_false]
    intro p hp
    simp only [Bool.or_eq_true, decide_eq_true_eq, not_or]
    obtain ⟨h1, h2⟩ := hmem p hp
    exact ⟨not_lt.mpr h1, not_lt.mpr h2⟩
  rw [npBinomial, if_neg (not_lt.mpr hn), hany]
  simp [hlen]

/-- Difference sample set of inner scenario `i`: the fresh Laplace-smoothed
(+1/+1) Beta draws at the hypothetical final counts, test minus control. -/
def innerDiff (self : ExperimentTerminator) (r : RngOracle) (pa pb : ℤ)
    (pota potb : List ℤ) (i : ℕ) : List ℚ :=
  List.zipWith (fun b a => b - a)
    (r.beta (3 + 2*i) (potb.getD i 0 + 1) (pb - potb.getD i 0 + 1)
      self.mc_samples)
    (r.beta (2 + 2*i) (pota.getD i 0 + 1) (pa - pota.getD i 0 + 1)
      self.mc_samples)

/-- Mark of outer scenario `i` (1 = rejecting) as the source computes it:
`interval[0] > 0 or interval[1] < 0` on the inner difference samples. -/
def innerIndicator (self : ExperimentTerminator) (r : RngOracle) (pa pb : ℤ)
    (pota potb : List ℤ) (i : ℕ) : ℚ :=
  if 0 < npQuantile (innerDiff self r pa pb pota potb i) (self.alpha / 2) ∨
      npQuantile (innerDiff self r pa pb pota potb i) (1 - self.alpha / 2) < 0
  then 1 else 0

theorem scenario_rejection_ok (self : ExperimentTerminator) (r : RngOracle)
    (pa pb : ℤ) (pota potb : List ℤ) (i : ℕ)
    (hfa : 0 ≤ pota.getD i 0 ∧ pota.getD i 0 ≤ pa)
    (hfb : 0 ≤ potb.getD i 0 ∧ potb.getD i 0 ≤ pb) :
    ExperimentTerminator.scenario_rejection self r pa pb pota potb i =
      Except.ok (innerIndicator self r pa pb pota potb i) := by
  rw [ExperimentTerminator.scenario_rejection,
    npBeta_ok (by omega) (by omega), npBeta_ok (by omega) (by omega)]
  simp [Bind.bind, Except.bind, pure, Except.pure, innerIndicator, innerDiff]

theorem get_prob_reject_null_ok
    (self : ExperimentTerminator) (r : RngOracle) (pa pb ca cb sa sb : ℤ)
    (psa psb : List ℚ) (hr : ValidRand r)
    (ha : ValidObs pa ca sa) (hb : ValidObs pb cb sb)
    (hla : psa.length = self.mc_samples) (hlb : psb.length = self.mc_samples)
    (hma : ∀ p ∈ psa, 0 ≤ p ∧ p ≤ 1) (hmb : ∀ p ∈ psb, 0 ≤ p ∧ p ≤ 1) :
    self.get_prob_reject_null r pa pb ca cb sa sb psa psb =
      Except.ok (npMean ((List.range self.mc_samples).map
        (innerIndicator self r pa pb
          ((r.binom 0 (pa - ca) psa).map (· + sa))
          ((r.binom 1 (pb - cb) psb).map (· + sb))))) := by
  obtain ⟨ha0, ha1, ha2⟩ := ha
  obtain ⟨hb0, hb1, hb2⟩ := hb
  have hmain : ∀ (kk : ℕ) (rem s pl : ℤ) (ps : List ℚ), 0 ≤ s → 0 ≤ rem →
      rem + s ≤ pl → ps.length = self.mc_samples →
      ∀ i ∈ List.range self.mc_samples,
        0 ≤ ((r.binom kk rem ps).map (· + s)).getD i 0 ∧
          ((r.binom kk rem ps).map (· + s)).getD i 0 ≤ pl := by
    intro kk rem s pl ps hs hrem hsum hps i hi
    have hilt : i < ((r.binom kk rem ps).map (· + s)).length := by
      rw [List.length_map, hr.binom_length, hps]
      exact List.mem_range.mp hi
    rw [List.getD_eq_getElem _ _ hilt]
    have hmem : ((r.binom kk rem ps).map (· + s))[i] ∈
        (r.binom kk rem ps).map (· + s) := List.getElem_mem _
    obtain ⟨x, hx, hxe⟩ := List.mem_map.mp hmem
    obtain ⟨hx0, hx1⟩ := hr.binom_mem kk rem ps hrem x hx
    omega
  rw [ExperimentTerminator.get_prob_reject_null,
    npBinomial_ok (by omega) hma hla, npBinomial_ok (by omega) hmb hlb]
  have hloop := mapM_eq_ok_of_forall
    (ExperimentTerminator.scenario_rejection self r pa pb
      ((r.binom 0 (pa - ca) psa).map (· + sa))
      ((r.binom 1 (pb - cb) psb).map (· + sb)))
    (innerIndicator self r pa pb
      ((r.binom 0 (pa - ca) psa).map (· + sa))
      ((r.binom 1 (pb - cb) psb).map (· + sb)))
    (List.range self.mc_samples)
    (fun i hi => scenario_rejection_ok self r pa pb _ _ i
      (hmain 0 (pa - ca) sa pa psa ha0 (by omega) (by omega) hla i hi)
      (hmain 1 (pb - cb) sb pb psb hb0 (by omega) (by omega) hlb i hi))
  simp only [Bind.bind, Except.bind]
  rw [hloop]
  rfl

theorem get_posterior_samples_ok (self : ExperimentTerminator) (r : RngOracle)
    (ca cb sa sb : ℤ) (ha : 0 < sa ∧ sa < ca) (hb : 0 < sb ∧ sb < cb) :
    self.get_posterior_samples r ca cb sa sb =
      Except.ok (r.beta 0 sa (ca - sa) self.mc_samples,
        r.beta 1 sb (cb - sb) self.mc_samples) := by
  rw [ExperimentTerminator.get_posterior_samples,
    npBeta_ok ha.1 (by omega), npBeta_ok hb.1 (by omega)]
  rfl

theorem get_posterior_samples_ok_elim (self : ExperimentTerminator)
    (r : RngOracle) (ca cb sa sb : ℤ) (ps : List ℚ × List ℚ)
    (h : self.get_posterior_samples r ca cb sa sb = Except.ok ps) :
    ps = (r.beta 0 sa (ca - sa) self.mc_samples,
      r.beta 1 sb (cb - sb) self.mc_samples) := by
  simp only [ExperimentTerminator.get_posterior_samples, npBeta] at h
  split at h
  · simp [Bind.bind, Except.bind] at h
  · split at h
    · simp [Bind.bind, Except.bind] at h
    · simp only [Bind.bind, Except.bind, pure, Except.pure, Except.ok.injEq] at h
      exact h.symm

theorem analyze_experiment_ok_elim
    (self : ExperimentTerminator) (r : RngOracle) (pa pb ca cb sa sb : ℤ)
    (res : ExperimentTerminator.AnalysisResult)
    (h : self.analyze_experiment r pa pb ca cb sa sb = Except.ok res) :
    ∃ psa psb : List ℚ,
      self.get_posterior_samples r ca cb sa sb = Except.ok (psa, psb) ∧
      self.get_prob_reject_null r pa pb ca cb sa sb psa psb =
        Except.ok res.pr_reject_null ∧
      res.conversion_rate_a = (sa : ℚ) / (ca : ℚ) ∧
      res.conversion_rate_b = (sb : ℚ) / (cb : ℚ) ∧
      res.posterior_lift = List.zipWith (fun b a => (b - a) / a) psb psa ∧
      res.expected_lift = npMean res.posterior_lift ∧
      res.pr_b_gt_a =
        npMean (res.posterior_lift.map (fun x => if 0 ≤ x then (1 : ℚ) else 0)) := by
  rw [ExperimentTerminator.analyze_experiment] at h
  cases hg : self.get_posterior_samples r ca cb sa sb with
  | error e => rw [hg] at h; simp [Bind.bind, Except.bind] at h
  | ok ps =>
    rw [hg] at h
    simp only [Bind.bind, Except.bind] at h
    cases hp : self.get_prob_reject_null r pa pb ca cb sa sb ps.1 ps.2 with
    | error e => rw [hp] at h; simp at h
    | ok v =>
      rw [hp] at h
      simp only [pure, Except.pure, Except.ok.injEq] at h
      subst h
      exact ⟨ps.1, ps.2, rfl, hp, rfl, rfl, rfl, rfl, rfl⟩

/-! ## Claim-side notions and concrete oracles -/

/-- Condition the spec states for marking a scenario as rejecting: the two
empirical quantiles are both strictly above zero or both strictly below
zero. -/
def excludesZero (diff : List ℚ) (alpha : ℚ) : Prop :=
  (0 < npQuantile diff (alpha / 2) ∧ 0 < npQuantile diff (1 - alpha / 2)) ∨
  (npQuantile diff (alpha / 2) < 0 ∧ npQuantile diff (1 - alpha / 2) < 0)

instance (d : List ℚ) (a : ℚ) : Decidable (excludesZero d a) := by
  unfold excludesZero; infer_instance

theorem excludesZero_iff {diff : List ℚ} (hne : diff ≠ []) {alpha : ℚ}
    (h0 : 0 ≤ alpha) (h1 : alpha ≤ 1) :
    (0 < npQuantile diff (alpha / 2) ∨ npQuantile diff (1 - alpha / 2) < 0) ↔
      excludesZero diff alpha := by
  have hle := npQuantile_lo_le_hi hne h0 h1
  unfold excludesZero
  constructor
  · rintro (h | h)
    · exact Or.inl ⟨h, lt_of_lt_of_le h hle⟩
    · exact Or.inr ⟨lt_of_le_of_lt hle h, h⟩
  · rintro (⟨h, -⟩ | ⟨-, h⟩)
    · exact Or.inl h
    · exact Or.inr h

theorem innerDiff_length {r : RngOracle} (hr : ValidRand r)
    (self : ExperimentTerminator) (pa pb : ℤ) (pota potb : List ℤ) (i : ℕ) :
    (innerDiff self r pa pb pota potb i).length = self.mc_samples := by
  rw [innerDiff, List.length_zipWith, hr.beta_length, hr.beta_length, min_self]

theorem getD_replicate_of_lt {α : Type} {n i : ℕ} (a d : α) (h : i < n) :
    (List.replicate n a).getD i d = a := by
  rw [List.getD_eq_getElem _ _ (by simpa using h), List.getElem_replicate]

/-- Degenerate oracle used for concrete instantiations: every Beta draw is
1/2 and every Binomial draw is 0. -/
def constRand : RngOracle :=
  ⟨fun _ _ _ n => List.replicate n (1/2), fun _ _ ps => ps.map (fun _ => 0)⟩

theorem validRand_constRand : ValidRand constRand := by
  refine ⟨?_, ?_, ?_, ?_⟩
  · intro k a b n; simp [constRand]
  · intro k a b n x hx
    have hx2 : x = 1/2 := List.eq_of_mem_replicate (by simpa [constRand] using hx)
    subst hx2
    norm_num
  · intro k n ps; simp [constRand]
  · intro k n ps hn x hx
    simp only [constRand, List.mem_map] at hx
    obtain ⟨a, -, rfl⟩ := hx
    exact ⟨le_rfl, hn⟩

/-- Oracle whose Beta call 0 (the control-arm current posterior) draws 0:
used to exhibit a zero control draw reaching the lift division. -/
def zeroCtrlRand : RngOracle :=
  ⟨fun k _ _ n => if k = 0 then List.replicate n 0 else List.replicate n (1/2),
   fun _ _ ps => ps.map (fun _ => 0)⟩

/-! ## Claims -/

/-- C3: for every analysis result with `p = probSignificanceAtEnd` and
`q = probTestBeatsControl`, the classification is Terminate-No-Difference
iff `p < 0.01`; Terminate-Difference iff `p > 0.99`, with direction
Test-Superior iff `q > 0.5` and Control-Superior otherwise; and
Continue-Not-Yet-Terminable in every other case, in particular when `p`
equals exactly 0.01 or exactly 0.99. -/
theorem claim_C3 (p q : ℚ) :
    (classify_experiment p q = Conclusion.terminate_no_difference ↔
      p < 0.01) ∧
    ((classify_experiment p q = Conclusion.terminate_test_superior ∨
        classify_experiment p q = Conclusion.terminate_control_superior) ↔
      0.99 < p) ∧
    (classify_experiment p q = Conclusion.terminate_test_superior ↔
      (0.99 < p ∧ 0.5 < q)) ∧
    (classify_experiment p q = Conclusion.terminate_control_superior ↔
      (0.99 < p ∧ q ≤ 0.5)) ∧
    (classify_experiment p q = Conclusion.do_not_terminate ↔
      (0.01 ≤ p ∧ p ≤ 0.99)) ∧
    classify_experiment 0.01 q = Conclusion.do_not_terminate ∧
    classify_experiment 0.99 q = Conclusion.do_not_terminate := by
  refine ⟨?_, ?_, ?_, ?_, ?_, ?_, ?_⟩ <;>
    unfold classify_experiment <;>
    split_ifs <;>
    simp_all <;>
    norm_num at * <;>
    first
      | linarith
      | (intro hx; linarith)

/-- C7: an observation that makes a Beta shape parameter non-positive
(`successes = 0` or `successes = completedTrials` in either arm) makes
`get_posterior_samples` signal an error instead of returning sample sets. -/
theorem claim_C7 (self : ExperimentTerminator) (r : RngOracle)
    (ca cb sa sb : ℤ)
    (ha : 0 ≤ sa ∧ sa ≤ ca) (hb : 0 ≤ sb ∧ sb ≤ cb)
    (hdeg : sa = 0 ∨ sa = ca ∨ sb = 0 ∨ sb = cb) :
    ∀ ps, self.get_posterior_samples r ca cb sa sb ≠ Except.ok ps := by
  intro ps h
  simp only [ExperimentTerminator.get_posterior_samples, npBeta, Bind.bind] at h
  split at h
  · simp [Except.bind] at h
  · rename_i hA
    simp only [Except.bind] at h
    split at h
    · simp at h
    · rename_i hB
      split at hB
      · simp at hB
      · rename_i hB2
        omega

/-- C9: whenever the analysis returns a result, the returned control and
test rates are exactly `successes/completedTrials` of each arm, for every
oracle (hence independent of any random draws). -/
theorem claim_C9 (self : ExperimentTerminator) (r : RngOracle)
    (pa pb ca cb sa sb : ℤ) (res : ExperimentTerminator.AnalysisResult)
    (hobs_a : ValidObs pa ca sa) (hobs_b : ValidObs pb cb sb)
    (hone_a : 1 ≤ ca) (hone_b : 1 ≤ cb)
    (h : self.analyze_experiment r pa pb ca cb sa sb = Except.ok res) :
    res.conversion_rate_a = (sa : ℚ) / (ca : ℚ) ∧
    res.conversion_rate_b = (sb : ℚ) / (cb : ℚ) := by
  obtain ⟨psa, psb, -, -, h1, h2, -, -, -⟩ :=
    analyze_experiment_ok_elim self r pa pb ca cb sa sb res h
  exact ⟨h1, h2⟩

/-- C1: on valid inputs, `get_prob_reject_null` returns exactly the fraction
of the N outer scenarios whose empirical `alpha/2` and `1 - alpha/2`
quantiles of the inner differences test minus control are both strictly
above zero or both strictly below zero. -/
theorem claim_C1 (self : ExperimentTerminator) (r : RngOracle)
    (pa pb ca cb sa sb : ℤ) (psa psb : List ℚ)
    (hr : ValidRand r)
    (hobs_a : ValidObs pa ca sa) (hobs_b : ValidObs pb cb sb)
    (halpha_lo : 0 ≤ self.alpha) (halpha_hi : self.alpha ≤ 1)
    (hN : 1 ≤ self.mc_samples)
    (hla : psa.length = self.mc_samples) (hlb : psb.length = self.mc_samples)
    (hma : ∀ p ∈ psa, 0 ≤ p ∧ p ≤ 1) (hmb : ∀ p ∈ psb, 0 ≤ p ∧ p ≤ 1) :
    self.get_prob_reject_null r pa pb ca cb sa sb psa psb =
      Except.ok
        ((((List.range self.mc_samples).countP (fun i =>
          decide (excludesZero
            (innerDiff self r pa pb
              ((r.binom 0 (pa - ca) psa).map (· + sa))
              ((r.binom 1 (pb - cb) psb).map (· + sb)) i)
            self.alpha))) : ℚ) / (self.mc_samples : ℚ)) := by
  rw [get_prob_reject_null_ok self r pa pb ca cb sa sb psa psb hr hobs_a
    hobs_b hla hlb hma hmb]
  have hcong : ∀ i ∈ List.range self.mc_samples,
      innerIndicator self r pa pb
          ((r.binom 0 (pa - ca) psa).map (· + sa))
          ((r.binom 1 (pb - cb) psb).map (· + sb)) i =
        if excludesZero
            (innerDiff self r pa pb
              ((r.binom 0 (pa - ca) psa).map (· + sa))
              ((r.binom 1 (pb - cb) psb).map (· + sb)) i)
            self.alpha
        then (1 : ℚ) else 0 := by
    intro i hi
    have hne : innerDiff self r pa pb
        ((r.binom 0 (pa - ca) psa).map (· + sa))
        ((r.binom 1 (pb - cb) psb).map (· + sb)) i ≠ [] := by
      intro hnil
      have hl := innerDiff_length hr self pa pb
        ((r.binom 0 (pa - ca) psa).map (· + sa))
        ((r.binom 1 (pb - cb) psb).map (· + sb)) i
      rw [hnil] at hl
      simp at hl
      omega
    rw [innerIndicator,
      if_congr (excludesZero_iff hne halpha_lo halpha_hi) rfl rfl]
  rw [List.map_congr_left hcong,
    npMean_indicator
      (fun i => excludesZero
        (innerDiff self r pa pb
          ((r.binom 0 (pa - ca) psa).map (· + sa))
          ((r.binom 1 (pb - cb) psb).map (· + sb)) i)
        self.alpha)
      (List.range self.mc_samples),
    List.length_range]

/-- C2: the current-posterior sampler passes the unsmoothed shape pair
(successes, completed − successes) to the Beta sampler for each arm, the
predictive inner sampler passes the Laplace-smoothed pair
(final + 1, planned − final + 1), and the two shape pairs are distinct at
every scenario. -/
theorem claim_C2 (self : ExperimentTerminator) (r : RngOracle)
    (pa pb ca cb sa sb : ℤ) (psa psb : List ℚ)
    (hr : ValidRand r)
    (hobs_a : ValidObs pa ca sa) (hobs_b : ValidObs pb cb sb)
    (hla : psa.length = self.mc_samples) (hlb : psb.length = self.mc_samples)
    (hma : ∀ p ∈ psa, 0 ≤ p ∧ p ≤ 1) (hmb : ∀ p ∈ psb, 0 ≤ p ∧ p ≤ 1) :
    (∀ ps : List ℚ × List ℚ,
      self.get_posterior_samples r ca cb sa sb = Except.ok ps →
        ps = (r.beta 0 sa (ca - sa) self.mc_samples,
          r.beta 1 sb (cb - sb) self.mc_samples)) ∧
    self.get_prob_reject_null r pa pb ca cb sa sb psa psb =
      Except.ok (npMean ((List.range self.mc_samples).map
        (innerIndicator self r pa pb
          ((r.binom 0 (pa - ca) psa).map (· + sa))
          ((r.binom 1 (pb - cb) psb).map (· + sb))))) ∧
    (∀ i : ℕ,
      (sa, ca - sa) ≠
        (((r.binom 0 (pa - ca) psa).map (· + sa)).getD i 0 + 1,
          pa - ((r.binom 0 (pa - ca) psa).map (· + sa)).getD i 0 + 1) ∧
      (sb, cb - sb) ≠
        (((r.binom 1 (pb - cb) psb).map (· + sb)).getD i 0 + 1,
          pb - ((r.binom 1 (pb - cb) psb).map (· + sb)).getD i 0 + 1)) := by
  obtain ⟨ha0, ha1, ha2⟩ := hobs_a
  obtain ⟨hb0, hb1, hb2⟩ := hobs_b
  refine ⟨fun ps hps => get_posterior_samples_ok_elim self r ca cb sa sb ps hps,
    get_prob_reject_null_ok self r pa pb ca cb sa sb psa psb hr
      ⟨ha0, ha1, ha2⟩ ⟨hb0, hb1, hb2⟩ hla hlb hma hmb, ?_⟩
  intro i
  constructor <;> intro heq <;> rw [Prod.mk.injEq] at heq <;> omega

/-- Fraction of the N outer scenarios whose fresh Laplace-smoothed interval
at the OBSERVED success counts excludes zero: the direct re-estimation of
current significance that the spec says the predictive estimator reduces to
when no trials remain (this definition follows the spec's words; it is the
comparison point of the refinement claim C5). -/
def current_significance_fraction (self : ExperimentTerminator)
    (r : RngOracle) (pa pb sa sb : ℤ) : ℚ :=
  npMean ((List.range self.mc_samples).map (fun i =>
    if 0 < npQuantile (List.zipWith (fun b a => b - a)
          (r.beta (3 + 2*i) (sb + 1) (pb - sb + 1) self.mc_samples)
          (r.beta (2 + 2*i) (sa + 1) (pa - sa + 1) self.mc_samples))
        (self.alpha / 2) ∨
        npQuantile (List.zipWith (fun b a => b - a)
          (r.beta (3 + 2*i) (sb + 1) (pb - sb + 1) self.mc_samples)
          (r.beta (2 + 2*i) (sa + 1) (pa - sa + 1) self.mc_samples))
        (1 - self.alpha / 2) < 0
    then (1 : ℚ) else 0))

/-- C5: with no remaining trials (completed = planned in both arms), every
hypothetical final success count equals the observed successes — the
Binomial step is an identity — and `get_prob_reject_null` returns exactly
the degenerate current-significance fraction at the observed counts. -/
theorem claim_C5 (self : ExperimentTerminator) (r : RngOracle)
    (pa pb ca cb sa sb : ℤ) (psa psb : List ℚ)
    (hr : ValidRand r)
    (hobs_a : ValidObs pa ca sa) (hobs_b : ValidObs pb cb sb)
    (hca : ca = pa) (hcb : cb = pb)
    (hla : psa.length = self.mc_samples) (hlb : psb.length = self.mc_samples)
    (hma : ∀ p ∈ psa, 0 ≤ p ∧ p ≤ 1) (hmb : ∀ p ∈ psb, 0 ≤ p ∧ p ≤ 1) :
    ((r.binom 0 (pa - ca) psa).map (· + sa) =
      List.replicate self.mc_samples sa) ∧
    ((r.binom 1 (pb - cb) psb).map (· + sb) =
      List.replicate self.mc_samples sb) ∧
    self.get_prob_reject_null r pa pb ca cb sa sb psa psb =
      Except.ok (current_significance_fraction self r pa pb sa sb) := by
  subst hca
  subst hcb
  have hrepl : ∀ (kk : ℕ) (n0 : ℤ) (ps : List ℚ) (s : ℤ), n0 = 0 →
      ps.length = self.mc_samples →
      (r.binom kk n0 ps).map (· + s) =
        List.replicate self.mc_samples s := by
    intro kk n0 ps s hn0 hlen
    rw [List.eq_replicate_iff]
    refine ⟨by rw [List.length_map, hr.binom_length, hlen], ?_⟩
    intro b hbmem
    obtain ⟨x, hx, rfl⟩ := List.mem_map.mp hbmem
    have hxx := hr.binom_mem kk n0 ps (by omega) x hx
    omega
  have h1 := hrepl 0 (ca - ca) psa sa (by omega) hla
  have h2 := hrepl 1 (cb - cb) psb sb (by omega) hlb
  refine ⟨h1, h2, ?_⟩
  rw [get_prob_reject_null_ok self r ca cb ca cb sa sb psa psb hr hobs_a
    hobs_b hla hlb hma hmb, h1, h2, current_significance_fraction]
  refine congrArg Except.ok (congrArg npMean (List.map_congr_left ?_))
  intro i hi
  have hilt := List.mem_range.mp hi
  rw [innerIndicator, innerDiff,
    getD_replicate_of_lt sa (0 : ℤ) hilt, getD_replicate_of_lt sb (0 : ℤ) hilt]

theorem scenario_rejection_values (self : ExperimentTerminator)
    (r : RngOracle) (pa pb : ℤ) (pota potb : List ℤ) (i : ℕ) (y : ℚ)
    (h : ExperimentTerminator.scenario_rejection self r pa pb pota potb i =
      Except.ok y) :
    y = 0 ∨ y = 1 := by
  simp only [ExperimentTerminator.scenario_rejection, npBeta, Bind.bind] at h
  split at h
  · simp [Except.bind] at h
  · simp only [Except.bind] at h
    split at h
    · simp at h
    · rename_i hB
      split at hB
      · simp at hB
      · simp only [pure, Except.pure, Except.ok.injEq] at h
        split at h
        · exact Or.inr h.symm
        · exact Or.inl h.symm

theorem get_prob_reject_null_ok_bounds (self : ExperimentTerminator)
    (r : RngOracle) (pa pb ca cb sa sb : ℤ) (psa psb : List ℚ) (v : ℚ)
    (hN : 1 ≤ self.mc_samples)
    (h : self.get_prob_reject_null r pa pb ca cb sa sb psa psb =
      Except.ok v) :
    0 ≤ v ∧ v ≤ 1 := by
  rw [ExperimentTerminator.get_prob_reject_null] at h
  cases h1 : npBinomial r 0 (pa - ca) psa self.mc_samples with
  | error e => rw [h1] at h; simp [Bind.bind, Except.bind] at h
  | ok pota =>
    rw [h1] at h
    simp only [Bind.bind, Except.bind] at h
    cases h2 : npBinomial r 1 (pb - cb) psb self.mc_samples with
    | error e => rw [h2] at h; simp at h
    | ok potb =>
      rw [h2] at h
      simp only [Except.bind] at h
      cases h3 : (List.range self.mc_samples).mapM
          (ExperimentTerminator.scenario_rejection self r pa pb
            (pota.map (· + sa)) (potb.map (· + sb))) with
      | error e => rw [h3] at h; simp at h
      | ok rej =>
        rw [h3] at h
        simp only [pure, Except.pure, Except.ok.injEq] at h
        subst h
        obtain ⟨hlen, hmem⟩ := mapM_ok_elim _ _ _ h3
        have hmem01 : ∀ y ∈ rej, 0 ≤ y ∧ y ≤ 1 := by
          intro y hy
          obtain ⟨i, -, hi⟩ := hmem y hy
          rcases scenario_rejection_values self r pa pb _ _ i y hi with rfl | rfl
          · norm_num
          · norm_num
        have hne : rej ≠ [] := by
          intro hnil
          rw [hnil] at hlen
          simp [List.length_range] at hlen
          omega
        exact ⟨npMean_nonneg (fun x hx => (hmem01 x hx).1),
          npMean_le_one hne (fun x hx => (hmem01 x hx).2)⟩

/-- C8: on valid inputs with any sample count N ≥ 1, the two
probability-valued outputs of the analysis lie in the closed interval
[0, 1]. -/
theorem claim_C8 (self : ExperimentTerminator) (r : RngOracle)
    (pa pb ca cb sa sb : ℤ) (res : ExperimentTerminator.AnalysisResult)
    (hr : ValidRand r)
    (hobs_a : ValidObs pa ca sa) (hobs_b : ValidObs pb cb sb)
    (hN : 1 ≤ self.mc_samples)
    (h : self.analyze_experiment r pa pb ca cb sa sb = Except.ok res) :
    0 ≤ res.pr_b_gt_a ∧ res.pr_b_gt_a ≤ 1 ∧
      0 ≤ res.pr_reject_null ∧ res.pr_reject_null ≤ 1 := by
  obtain ⟨psa, psb, hg, hprn, -, -, hlift, -, hpr⟩ :=
    analyze_experiment_ok_elim self r pa pb ca cb sa sb res h
  have hps := get_posterior_samples_ok_elim self r ca cb sa sb (psa, psb) hg
  rw [Prod.mk.injEq] at hps
  obtain ⟨rfl, rfl⟩ := hps
  have hlen : res.posterior_lift.length = self.mc_samples := by
    rw [hlift, List.length_zipWith, hr.beta_length, hr.beta_length, min_self]
  have hb1 : 0 ≤ res.pr_b_gt_a ∧ res.pr_b_gt_a ≤ 1 := by
    rw [hpr]
    have hmm : ∀ x ∈ res.posterior_lift.map
        (fun x => if 0 ≤ x then (1 : ℚ) else 0), 0 ≤ x ∧ x ≤ 1 := by
      intro x hx
      obtain ⟨a, -, rfl⟩ := List.mem_map.mp hx
      split <;> norm_num
    have hne : res.posterior_lift.map
        (fun x => if 0 ≤ x then (1 : ℚ) else 0) ≠ [] := by
      intro hnil
      have hl := congrArg List.length hnil
      rw [List.length_map, hlen] at hl
      simp at hl
      omega
    exact ⟨npMean_nonneg (fun x hx => (hmm x hx).1),
      npMean_le_one hne (fun x hx => (hmm x hx).2)⟩
  obtain ⟨hb2a, hb2b⟩ := get_prob_reject_null_ok_bounds self r pa pb ca cb
    sa sb _ _ res.pr_reject_null hN hprn
  exact ⟨hb1.1, hb1.2, hb2a, hb2b⟩

/-- C4: on success the lift set is the elementwise quotient
(test − control)/control of the two equal-length posterior sample sets,
`expected_lift` is its arithmetic mean, and `pr_b_gt_a` is the fraction of
indices with lift ≥ 0 (a tie at exactly zero counts as test beating
control). -/
theorem claim_C4 (self : ExperimentTerminator) (r : RngOracle)
    (pa pb ca cb sa sb : ℤ) (res : ExperimentTerminator.AnalysisResult)
    (hr : ValidRand r)
    (h : self.analyze_experiment r pa pb ca cb sa sb = Except.ok res) :
    res.posterior_lift.length = self.mc_samples ∧
    (∀ i, i < self.mc_samples →
      res.posterior_lift.getD i 0 =
        ((r.beta 1 sb (cb - sb) self.mc_samples).getD i 0 -
          (r.beta 0 sa (ca - sa) self.mc_samples).getD i 0) /
          (r.beta 0 sa (ca - sa) self.mc_samples).getD i 0) ∧
    res.expected_lift = npMean res.posterior_lift ∧
    res.pr_b_gt_a =
      ((res.posterior_lift.countP (fun x => decide (0 ≤ x))) : ℚ) /
        (self.mc_samples : ℚ) := by
  obtain ⟨psa, psb, hg, -, -, -, hlift, hexp, hpr⟩ :=
    analyze_experiment_ok_elim self r pa pb ca cb sa sb res h
  have hps := get_posterior_samples_ok_elim self r ca cb sa sb (psa, psb) hg
  rw [Prod.mk.injEq] at hps
  obtain ⟨rfl, rfl⟩ := hps
  have hla := hr.beta_length 0 sa (ca - sa) self.mc_samples
  have hlb := hr.beta_length 1 sb (cb - sb) self.mc_samples
  have hlen : res.posterior_lift.length = self.mc_samples := by
    rw [hlift, List.length_zipWith, hla, hlb, min_self]
  refine ⟨hlen, ?_, hexp, ?_⟩
  · intro i hi
    have hi2 : i < (List.zipWith (fun b a => (b - a) / a)
        (r.beta 1 sb (cb - sb) self.mc_samples)
        (r.beta 0 sa (ca - sa) self.mc_samples)).length := by
      rw [List.length_zipWith, hla, hlb, min_self]
      exact hi
    rw [hlift, List.getD_eq_getElem _ _ hi2, List.getElem_zipWith,
      List.getD_eq_getElem _ 0 (by rw [hlb]; exact hi),
      List.getD_eq_getElem _ 0 (by rw [hla]; exact hi)]
  · rw [hpr, npMean_indicator (fun x => (0 : ℚ) ≤ x) res.posterior_lift, hlen]

/-- C6 (amended): the lift division is not guarded — whenever the analysis
succeeds, the lift set is the full elementwise quotient of the two posterior
sample sets (length N, the i-th entry dividing by the i-th control draw even
where that draw is zero), and the aggregates `expected_lift` and
`pr_b_gt_a` average over all N entries with none excluded. -/
theorem claim_C6_amended (self : ExperimentTerminator) (r : RngOracle)
    (pa pb ca cb sa sb : ℤ) (res : ExperimentTerminator.AnalysisResult)
    (hr : ValidRand r)
    (h : self.analyze_experiment r pa pb ca cb sa sb = Except.ok res) :
    res.posterior_lift =
      List.zipWith (fun b a => (b - a) / a)
        (r.beta 1 sb (cb - sb) self.mc_samples)
        (r.beta 0 sa (ca - sa) self.mc_samples) ∧
    res.posterior_lift.length = self.mc_samples ∧
    res.expected_lift = npMean res.posterior_lift ∧
    res.pr_b_gt_a =
      npMean (res.posterior_lift.map (fun x => if 0 ≤ x then (1 : ℚ) else 0)) := by
  obtain ⟨psa, psb, hg, -, -, -, hlift, hexp, hpr⟩ :=
    analyze_experiment_ok_elim self r pa pb ca cb sa sb res h
  have hps := get_posterior_samples_ok_elim self r ca cb sa sb (psa, psb) hg
  rw [Prod.mk.injEq] at hps
  obtain ⟨rfl, rfl⟩ := hps
  exact ⟨hlift, by rw [hlift, List.length_zipWith, hr.beta_length,
    hr.beta_length, min_self], hexp, hpr⟩

namespace ExperimentTerminator

/-- State-threaded variant of `get_posterior_samples`: the Python method
reads `self.mc_samples` but assigns no attribute of `self`, so its effect on
the object state is the identity; the variant returns the state so the
frame property is a checkable output. -/
def get_posterior_samples_frame (self : ExperimentTerminator) (r : RngOracle)
    (completed_trials_a completed_trials_b successes_a successes_b : ℤ) :
    Except String ((List ℚ × List ℚ) × ExperimentTerminator) := do
  let ps ← self.get_posterior_samples r completed_trials_a
    completed_trials_b successes_a successes_b
  return (ps, self)

/-- State-threaded variant of `get_prob_reject_null` (the method body
assigns no attribute of `self`). -/
def get_prob_reject_null_frame (self : ExperimentTerminator) (r : RngOracle)
    (pa pb ca cb sa sb : ℤ) (psa psb : List ℚ) :
    Except String (ℚ × ExperimentTerminator) := do
  let v ← self.get_prob_reject_null r pa pb ca cb sa sb psa psb
  return (v, self)

/-- State-threaded variant of `analyze_experiment`, sequencing the
state-threaded methods exactly as the source body does. -/
def analyze_experiment_frame (self : ExperimentTerminator) (r : RngOracle)
    (pa pb ca cb sa sb : ℤ) :
    Except String (AnalysisResult × ExperimentTerminator) := do
  let psst ← self.get_posterior_samples_frame r ca cb sa sb
  let posterior_samples := psst.1
  let self1 := psst.2
  let posterior_lift := List.zipWith (fun b a => (b - a) / a)
    posterior_samples.2 posterior_samples.1
  let conversion_rate_a := (sa : ℚ) / (ca : ℚ)
  let conversion_rate_b := (sb : ℚ) / (cb : ℚ)
  let expected_lift := npMean posterior_lift
  let pr_b_gt_a :=
    npMean (posterior_lift.map (fun x => if 0 ≤ x then (1 : ℚ) else 0))
  let prst ← self1.get_prob_reject_null_frame r pa pb ca cb sa sb
    posterior_samples.1 posterior_samples.2
  return (⟨conversion_rate_a, conversion_rate_b, expected_lift, pr_b_gt_a,
    prst.1, posterior_lift⟩, prst.2)

end ExperimentTerminator

/-- C10: an analysis call leaves the configuration fields unchanged — the
state coming out of the state-threaded methods is the state that went in,
whose constructor defaults are `mc_samples = 5000` and `alpha = 0.05` — and
consequently every sample set generated within one call shares the single
length `mc_samples`: both posterior sample sets, the lift sample set, and,
for each outer scenario `i`, the two inner predictive Beta sample sets at
the potential success counts; and the state-threaded analysis agrees with
`analyze_experiment`. -/
theorem claim_C10 (self : ExperimentTerminator) (r : RngOracle)
    (pa pb ca cb sa sb : ℤ)
    (ps : List ℚ × List ℚ) (self₂ : ExperimentTerminator)
    (res : ExperimentTerminator.AnalysisResult)
    (self₃ : ExperimentTerminator)
    (hr : ValidRand r)
    (hg : self.get_posterior_samples_frame r ca cb sa sb =
      Except.ok (ps, self₂))
    (han : self.analyze_experiment_frame r pa pb ca cb sa sb =
      Except.ok (res, self₃)) :
    self₂ = self ∧ self₃ = self ∧
    ExperimentTerminator.init.mc_samples = 5000 ∧
    ExperimentTerminator.init.alpha = 0.05 ∧
    ps.1.length = self.mc_samples ∧ ps.2.length = self.mc_samples ∧
    res.posterior_lift.length = self.mc_samples ∧
    (∀ i : ℕ,
      (r.beta (2 + 2*i)
        (((r.binom 0 (pa - ca) ps.1).map (· + sa)).getD i 0 + 1)
        (pa - ((r.binom 0 (pa - ca) ps.1).map (· + sa)).getD i 0 + 1)
        self.mc_samples).length = self.mc_samples ∧
      (r.beta (3 + 2*i)
        (((r.binom 1 (pb - cb) ps.2).map (· + sb)).getD i 0 + 1)
        (pb - ((r.binom 1 (pb - cb) ps.2).map (· + sb)).getD i 0 + 1)
        self.mc_samples).length = self.mc_samples) ∧
    self.analyze_experiment r pa pb ca cb sa sb = Except.ok res := by
  rw [ExperimentTerminator.get_posterior_samples_frame] at hg
  cases hgps : self.get_posterior_samples r ca cb sa sb with
  | error e => rw [hgps] at hg; simp [Bind.bind, Except.bind] at hg
  | ok ps0 =>
    rw [hgps] at hg
    simp only [Bind.bind, Except.bind, pure, Except.pure, Except.ok.injEq,
      Prod.mk.injEq] at hg
    obtain ⟨rfl, rfl⟩ := hg
    simp only [ExperimentTerminator.analyze_experiment_frame,
      ExperimentTerminator.get_posterior_samples_frame,
      ExperimentTerminator.get_prob_reject_null_frame, hgps] at han
    simp only [Bind.bind, Except.bind, pure, Except.pure] at han
    cases hprn : self.get_prob_reject_null r pa pb ca cb sa sb ps0.1 ps0.2 with
    | error e => rw [hprn] at han; simp at han
    | ok v =>
      rw [hprn] at han
      simp only [Except.ok.injEq, Prod.mk.injEq] at han
      obtain ⟨rfl, rfl⟩ := han
      have hps := get_posterior_samples_ok_elim self r ca cb sa sb ps0 hgps
      refine ⟨rfl, rfl, rfl, rfl, ?_, ?_, ?_, ?_, ?_⟩
      · rw [hps]
        exact hr.beta_length 0 sa (ca - sa) self.mc_samples
      · rw [hps]
        exact hr.beta_length 1 sb (cb - sb) self.mc_samples
      · simp only [hps, List.length_zipWith]
        rw [hr.beta_length, hr.beta_length, min_self]
      · intro i
        exact ⟨hr.beta_length _ _ _ _, hr.beta_length _ _ _ _⟩
      · rw [ExperimentTerminator.analyze_experiment, hgps]
        simp only [Bind.bind, Except.bind, hprn, pure, Except.pure]

/-- C6 (counterexample): the claim that the lift division is guarded against
zero control draws is false — with the oracle `zeroCtrlRand` the control
posterior draw is 0 and the analysis nevertheless succeeds and produces a
lift sample at that index. -/
theorem claim_C6_counterexample :
    ¬ (∀ (self : ExperimentTerminator) (r : RngOracle) (pa pb ca cb sa sb : ℤ)
        (res : ExperimentTerminator.AnalysisResult),
        self.analyze_experiment r pa pb ca cb sa sb = Except.ok res →
        ∀ i, i < res.posterior_lift.length →
          (r.beta 0 sa (ca - sa) self.mc_samples).getD i 1 ≠ 0) := by
  intro hclaim
  have hres : (⟨1, 1/20⟩ : ExperimentTerminator).analyze_experiment
      zeroCtrlRand 2 2 2 2 1 1 = Except.ok ⟨1/2, 1/2, 0, 1, 0, [0]⟩ := by
    norm_num [ExperimentTerminator.analyze_experiment,
      ExperimentTerminator.get_posterior_samples,
      ExperimentTerminator.get_prob_reject_null,
      ExperimentTerminator.scenario_rejection,
      npBeta, npBinomial, npMean, npQuantile, sortedSamples, interpAt,
      zeroCtrlRand, List.range_succ, List.mapM, List.mapM.loop,
      Bind.bind, Except.bind, pure, Except.pure, List.insertionSort,
      List.getD, List.replicate]
  have h0 := hclaim ⟨1, 1/20⟩ zeroCtrlRand 2 2 2 2 1 1 ⟨1/2, 1/2, 0, 1, 0, [0]⟩
    hres 0 (by norm_num)
  apply h0
  norm_num [zeroCtrlRand, List.replicate, List.getD]

/-! ## Concrete instantiations -/

theorem analyze_constRand_eval :
    (⟨1, 1/20⟩ : ExperimentTerminator).analyze_experiment constRand
      2 2 2 2 1 1 = Except.ok ⟨1/2, 1/2, 0, 1, 0, [0]⟩ := by
  norm_num [ExperimentTerminator.analyze_experiment,
    ExperimentTerminator.get_posterior_samples,
    ExperimentTerminator.get_prob_reject_null,
    ExperimentTerminator.scenario_rejection,
    npBeta, npBinomial, npMean, npQuantile, sortedSamples, interpAt,
    constRand, List.range_succ, List.mapM, List.mapM.loop,
    Bind.bind, Except.bind, pure, Except.pure, List.insertionSort,
    List.getD, List.replicate]

theorem gps_frame_constRand_eval :
    (⟨1, 1/20⟩ : ExperimentTerminator).get_posterior_samples_frame constRand
      2 2 1 1 = Except.ok (([1/2], [1/2]), ⟨1, 1/20⟩) := by
  norm_num [ExperimentTerminator.get_posterior_samples_frame,
    ExperimentTerminator.get_posterior_samples,
    npBeta, constRand, Bind.bind, Except.bind, pure, Except.pure,
    List.replicate]

theorem analyze_frame_constRand_eval :
    (⟨1, 1/20⟩ : ExperimentTerminator).analyze_experiment_frame constRand
      2 2 2 2 1 1 = Except.ok (⟨1/2, 1/2, 0, 1, 0, [0]⟩, ⟨1, 1/20⟩) := by
  norm_num [ExperimentTerminator.analyze_experiment_frame,
    ExperimentTerminator.get_posterior_samples_frame,
    ExperimentTerminator.get_prob_reject_null_frame,
    ExperimentTerminator.get_posterior_samples,
    ExperimentTerminator.get_prob_reject_null,
    ExperimentTerminator.scenario_rejection,
    npBeta, npBinomial, npMean, npQuantile, sortedSamples, interpAt,
    constRand, List.range_succ, List.mapM, List.mapM.loop,
    Bind.bind, Except.bind, pure, Except.pure, List.insertionSort,
    List.getD, List.replicate]

theorem mem_half_unit : ∀ p ∈ [(1 : ℚ)/2], 0 ≤ p ∧ p ≤ 1 := by
  intro p hp
  simp only [List.mem_singleton] at hp
  subst hp
  norm_num

/-! ## Witnesses -/

theorem claim_C1_witness :
    (⟨1, 1/20⟩ : ExperimentTerminator).get_prob_reject_null constRand
        2 2 2 2 1 1 [1/2] [1/2] =
      Except.ok
        ((((List.range (1 : ℕ)).countP (fun i =>
          decide (excludesZero
            (innerDiff ⟨1, 1/20⟩ constRand 2 2
              ((constRand.binom 0 ((2 : ℤ) - 2) [1/2]).map (· + 1))
              ((constRand.binom 1 ((2 : ℤ) - 2) [1/2]).map (· + 1)) i)
            (1/20)))) : ℚ) / ((1 : ℕ) : ℚ)) :=
  claim_C1 ⟨1, 1/20⟩ constRand 2 2 2 2 1 1 [1/2] [1/2]
    validRand_constRand ⟨by norm_num, by norm_num, by norm_num⟩
    ⟨by norm_num, by norm_num, by norm_num⟩
    (by norm_num) (by norm_num) le_rfl rfl rfl
    mem_half_unit mem_half_unit

theorem claim_C2_witness :
    (∀ ps : List ℚ × List ℚ,
      (⟨1, 1/20⟩ : ExperimentTerminator).get_posterior_samples constRand
          2 2 1 1 = Except.ok ps →
        ps = (constRand.beta 0 1 ((2 : ℤ) - 1) 1,
          constRand.beta 1 1 ((2 : ℤ) - 1) 1)) ∧
    (⟨1, 1/20⟩ : ExperimentTerminator).get_prob_reject_null constRand
        2 2 2 2 1 1 [1/2] [1/2] =
      Except.ok (npMean ((List.range (1 : ℕ)).map
        (innerIndicator ⟨1, 1/20⟩ constRand 2 2
          ((constRand.binom 0 ((2 : ℤ) - 2) [1/2]).map (· + 1))
          ((constRand.binom 1 ((2 : ℤ) - 2) [1/2]).map (· + 1))))) ∧
    (∀ i : ℕ,
      ((1 : ℤ), (2 : ℤ) - 1) ≠
        (((constRand.binom 0 ((2 : ℤ) - 2) [1/2]).map (· + 1)).getD i 0 + 1,
          2 - ((constRand.binom 0 ((2 : ℤ) - 2) [1/2]).map (· + 1)).getD i 0 + 1) ∧
      ((1 : ℤ), (2 : ℤ) - 1) ≠
        (((constRand.binom 1 ((2 : ℤ) - 2) [1/2]).map (· + 1)).getD i 0 + 1,
          2 - ((constRand.binom 1 ((2 : ℤ) - 2) [1/2]).map (· + 1)).getD i 0 + 1)) :=
  claim_C2 ⟨1, 1/20⟩ constRand 2 2 2 2 1 1 [1/2] [1/2]
    validRand_constRand ⟨by norm_num, by norm_num, by norm_num⟩
    ⟨by norm_num, by norm_num, by norm_num⟩
    rfl rfl mem_half_unit mem_half_unit

theorem claim_C4_witness :
    (⟨1/2, 1/2, 0, 1, 0, [0]⟩ :
        ExperimentTerminator.AnalysisResult).posterior_lift.length = 1 ∧
    (∀ i, i < (1 : ℕ) →
      (⟨1/2, 1/2, 0, 1, 0, [0]⟩ :
          ExperimentTerminator.AnalysisResult).posterior_lift.getD i 0 =
        ((constRand.beta 1 1 ((2 : ℤ) - 1) 1).getD i 0 -
          (constRand.beta 0 1 ((2 : ℤ) - 1) 1).getD i 0) /
          (constRand.beta 0 1 ((2 : ℤ) - 1) 1).getD i 0) ∧
    (⟨1/2, 1/2, 0, 1, 0, [0]⟩ :
        ExperimentTerminator.AnalysisResult).expected_lift =
      npMean (⟨1/2, 1/2, 0, 1, 0, [0]⟩ :
        ExperimentTerminator.AnalysisResult).posterior_lift ∧
    (⟨1/2, 1/2, 0, 1, 0, [0]⟩ :
        ExperimentTerminator.AnalysisResult).pr_b_gt_a =
      (((⟨1/2, 1/2, 0, 1, 0, [0]⟩ :
          ExperimentTerminator.AnalysisResult).posterior_lift.countP
        (fun x => decide (0 ≤ x))) : ℚ) / ((1 : ℕ) : ℚ) :=
  claim_C4 ⟨1, 1/20⟩ constRand 2 2 2 2 1 1 ⟨1/2, 1/2, 0, 1, 0, [0]⟩
    validRand_constRand analyze_constRand_eval

theorem claim_C5_witness :
    ((constRand.binom 0 ((2 : ℤ) - 2) [1/2]).map (· + 1) =
      List.replicate (1 : ℕ) (1 : ℤ)) ∧
    ((constRand.binom 1 ((2 : ℤ) - 2) [1/2]).map (· + 1) =
      List.replicate (1 : ℕ) (1 : ℤ)) ∧
    (⟨1, 1/20⟩ : ExperimentTerminator).get_prob_reject_null constRand
        2 2 2 2 1 1 [1/2] [1/2] =
      Except.ok (current_significance_fraction ⟨1, 1/20⟩ constRand 2 2 1 1) :=
  claim_C5 ⟨1, 1/20⟩ constRand 2 2 2 2 1 1 [1/2] [1/2]
    validRand_constRand ⟨by norm_num, by norm_num, by norm_num⟩
    ⟨by norm_num, by norm_num, by norm_num⟩ rfl rfl rfl rfl
    mem_half_unit mem_half_unit

theorem claim_C6_amended_witness :
    (⟨1/2, 1/2, 0, 1, 0, [0]⟩ :
        ExperimentTerminator.AnalysisResult).posterior_lift =
      List.zipWith (fun b a => (b - a) / a)
        (constRand.beta 1 1 ((2 : ℤ) - 1) 1)
        (constRand.beta 0 1 ((2 : ℤ) - 1) 1) ∧
    (⟨1/2, 1/2, 0, 1, 0, [0]⟩ :
        ExperimentTerminator.AnalysisResult).posterior_lift.length = 1 ∧
    (⟨1/2, 1/2, 0, 1, 0, [0]⟩ :
        ExperimentTerminator.AnalysisResult).expected_lift =
      npMean (⟨1/2, 1/2, 0, 1, 0, [0]⟩ :
        ExperimentTerminator.AnalysisResult).posterior_lift ∧
    (⟨1/2, 1/2, 0, 1, 0, [0]⟩ :
        ExperimentTerminator.AnalysisResult).pr_b_gt_a =
      npMean ((⟨1/2, 1/2, 0, 1, 0, [0]⟩ :
        ExperimentTerminator.AnalysisResult).posterior_lift.map
          (fun x => if 0 ≤ x then (1 : ℚ) else 0)) :=
  claim_C6_amended ⟨1, 1/20⟩ constRand 2 2 2 2 1 1 ⟨1/2, 1/2, 0, 1, 0, [0]⟩
    validRand_constRand analyze_constRand_eval

theorem claim_C7_witness :
    (⟨1, 1/20⟩ : ExperimentTerminator).get_posterior_samples constRand
      2 2 0 1 ≠ Except.ok (([1/2], [1/2]) : List ℚ × List ℚ) :=
  claim_C7 ⟨1, 1/20⟩ constRand 2 2 0 1
    ⟨by norm_num, by norm_num⟩ ⟨by norm_num, by norm_num⟩ (Or.inl rfl)
    ([1/2], [1/2])

theorem claim_C8_witness :
    0 ≤ (⟨1/2, 1/2, 0, 1, 0, [0]⟩ :
      ExperimentTerminator.AnalysisResult).pr_b_gt_a ∧
    (⟨1/2, 1/2, 0, 1, 0, [0]⟩ :
      ExperimentTerminator.AnalysisResult).pr_b_gt_a ≤ 1 ∧
    0 ≤ (⟨1/2, 1/2, 0, 1, 0, [0]⟩ :
      ExperimentTerminator.AnalysisResult).pr_reject_null ∧
    (⟨1/2, 1/2, 0, 1, 0, [0]⟩ :
      ExperimentTerminator.AnalysisResult).pr_reject_null ≤ 1 :=
  claim_C8 ⟨1, 1/20⟩ constRand 2 2 2 2 1 1 ⟨1/2, 1/2, 0, 1, 0, [0]⟩
    validRand_constRand ⟨by norm_num, by norm_num, by norm_num⟩
    ⟨by norm_num, by norm_num, by norm_num⟩ le_rfl analyze_constRand_eval

theorem claim_C9_witness :
    (⟨1/2, 1/2, 0, 1, 0, [0]⟩ :
        ExperimentTerminator.AnalysisResult).conversion_rate_a =
      ((1 : ℤ) : ℚ) / ((2 : ℤ) : ℚ) ∧
    (⟨1/2, 1/2, 0, 1, 0, [0]⟩ :
        ExperimentTerminator.AnalysisResult).conversion_rate_b =
      ((1 : ℤ) : ℚ) / ((2 : ℤ) : ℚ) :=
  claim_C9 ⟨1, 1/20⟩ constRand 2 2 2 2 1 1 ⟨1/2, 1/2, 0, 1, 0, [0]⟩
    ⟨by norm_num, by norm_num, by norm_num⟩
    ⟨by norm_num, by norm_num, by norm_num⟩
    (by norm_num) (by norm_num) analyze_constRand_eval

theorem claim_C10_witness :
    (⟨1, 1/20⟩ : ExperimentTerminator) = ⟨1, 1/20⟩ ∧
    (⟨1, 1/20⟩ : ExperimentTerminator) = ⟨1, 1/20⟩ ∧
    ExperimentTerminator.init.mc_samples = 5000 ∧
    ExperimentTerminator.init.alpha = 0.05 ∧
    (([(1 : ℚ)/2], [(1 : ℚ)/2]) : List ℚ × List ℚ).1.length = 1 ∧
    (([(1 : ℚ)/2], [(1 : ℚ)/2]) : List ℚ × List ℚ).2.length = 1 ∧
    (⟨1/2, 1/2, 0, 1, 0, [0]⟩ :
      ExperimentTerminator.AnalysisResult).posterior_lift.length = 1 ∧
    (∀ i : ℕ,
      (constRand.beta (2 + 2*i)
        (((constRand.binom 0 ((2 : ℤ) - 2) [(1 : ℚ)/2]).map (· + 1)).getD i 0 + 1)
        (2 - ((constRand.binom 0 ((2 : ℤ) - 2) [(1 : ℚ)/2]).map (· + 1)).getD i 0 + 1)
        1).length = 1 ∧
      (constRand.beta (3 + 2*i)
        (((constRand.binom 1 ((2 : ℤ) - 2) [(1 : ℚ)/2]).map (· + 1)).getD i 0 + 1)
        (2 - ((constRand.binom 1 ((2 : ℤ) - 2) [(1 : ℚ)/2]).map (· + 1)).getD i 0 + 1)
        1).length = 1) ∧
    (⟨1, 1/20⟩ : ExperimentTerminator).analyze_experiment constRand
      2 2 2 2 1 1 = Except.ok ⟨1/2, 1/2, 0, 1, 0, [0]⟩ :=
  claim_C10 ⟨1, 1/20⟩ constRand 2 2 2 2 1 1 ([1/2], [1/2]) ⟨1, 1/20⟩
    ⟨1/2, 1/2, 0, 1, 0, [0]⟩ ⟨1, 1/20⟩ validRand_constRand
    gps_frame_constRand_eval analyze_frame_constRand_eval
